import Mathlib

/-!
Verification development for `src/models/basic_files/dynamic_distraction_simple_soft.py`.

The module builds TensorFlow computation graphs.  The embedding below gives the
mathematical meaning of the tensors the module constructs: a float tensor of
shape `[batch, n]` is a function `Fin batch → Fin n → ℚ`, framework primitives
(`matmul`, `conv2d`, `reduce_sum`, `softmax`, ...) are the corresponding sums,
and the transcendental primitives `sigmoid`, `tanh`, `exp`, `log` are abstract
function parameters, since the module only ever composes them.  Fallible
behaviour (the explicit module `ValueError` raises) is modelled with
`Except String`.

Dimension conventions, taken from the decoder
(`dynamic_simple_soft_distraction_decoder`):
  * `b`  : batch size,
  * `m`  : decoder-input size (`input_size`),
  * `cs` : cell state/output size (`dim_2 = cell.output_size`; the projected
           initial state, the cell state and the cell output all carry it),
  * `nS` : `attn_size_state = attention_vec_size_state`,
  * `nQ` : `attn_size_query = attention_vec_size_query`,
  * `oS` : `output_size`,
  * `L`  : `attn_length_state`, `Lq` : `attn_length_query`,
  * `nh + 1` : `num_heads` (the decoder rejects `num_heads < 1`, and indexes
           `attns_state[0]`, so the head count is kept in successor form).
Line 243 of the source reshapes `attention_states` with last dimension
`attn_size_query`; the 1-by-1 convolution right after it requires that the
kernel input channels `attn_size_state` agree with it, so a well-formed graph
forces `attn_size_state = attn_size_query` there, and the embedding of the
hidden states uses the single size of the tensor being reshaped.
-/

namespace DDSS

/-- A `[batch, n]` float tensor. -/
abbrev Mat (b n : ℕ) : Type := Fin b → Fin n → ℚ

/-- A rank-4 float tensor, as produced by the `[-1, L, 1, n]` reshapes. -/
abbrev Ten4 (b l z n : ℕ) : Type := Fin b → Fin l → Fin z → Fin n → ℚ

/-- Embedding of `array_ops.transpose` of a rank-2 tensor. -/
def transposeM {m n : ℕ} (x : Fin m → Fin n → ℚ) : Fin n → Fin m → ℚ :=
  fun i j => x j i

/-- The literal `1e-12` added to `total_size` in `sequence_loss_by_example`. -/
def eps12 : ℚ := 1 / 10 ^ 12

/-- The literal `eps = 0.00000000000001` of the distraction block of the decoder. -/
def eps14 : ℚ := 1 / 10 ^ 14

/-- Embedding of `rnn_cell._linear([x], o, True)`: `matmul(x, Matrix) + Bias`. -/
def linear1 {b m o : ℕ} (x : Mat b m) (W : Fin m → Fin o → ℚ) (B : Fin o → ℚ) :
    Mat b o :=
  fun i j => (∑ k, x i k * W k j) + B j

/-- Embedding of `rnn_cell._linear([x, y], o, True)`: `matmul(concat(1, [x, y]), Matrix) + Bias`,
with the `(m + n) × o` matrix `Matrix` split into its two row blocks `W1`, `W2`. -/
def linear2 {b m n o : ℕ} (x : Mat b m) (y : Mat b n)
    (W1 : Fin m → Fin o → ℚ) (W2 : Fin n → Fin o → ℚ) (B : Fin o → ℚ) :
    Mat b o :=
  fun i j => (∑ k, x i k * W1 k j) + ((∑ k, y i k * W2 k j) + B j)

/-- Embedding of `rnn_cell._linear([cell_output] + attns_state, output_size, True)` (line 426),
with the weight matrix split into the `cell_output` block and one block per head. -/
def linear_heads {b cs nS oS nh : ℕ} (x : Mat b cs) (hs : Fin (nh + 1) → Mat b nS)
    (W1 : Fin cs → Fin oS → ℚ) (W2 : Fin (nh + 1) → Fin nS → Fin oS → ℚ)
    (B : Fin oS → ℚ) : Mat b oS :=
  fun i j => (∑ k, x i k * W1 k j) + ((∑ hd, ∑ k, hs hd i k * W2 hd k j) + B j)

/-- The `[-1, L, 1, n]` reshape of a `[batch, L, n]` tensor (lines 243, 246). -/
def hidden4 {b L n : ℕ} (states : Fin b → Fin L → Fin n → ℚ) : Ten4 b L 1 n :=
  fun i l _ j => states i l j

/-- Embedding of `nn_ops.conv2d(h, k, [1, 1, 1, 1], "SAME")` with a `[1, 1, n, o]` kernel:
a pointwise linear map over the channel dimension. -/
def conv1x1 {b L n o : ℕ} (h : Ten4 b L 1 n) (k : Fin n → Fin o → ℚ) :
    Ten4 b L 1 o :=
  fun i l z v => ∑ c, h i l z c * k c v

/-- Embedding of `nn_ops.softmax` on one row, with the exponential as a parameter. -/
def softmax {L : ℕ} (eF : ℚ → ℚ) (s : Fin L → ℚ) : Fin L → ℚ :=
  fun l => eF (s l) / ∑ l2, eF (s l2)

/-- The pre-softmax attention scores of `attention`/`attention_query`
(lines 307-308, 332-333): `reduce_sum(v * tanh(hidden_features + y), [2, 3])`,
where `hidden_features = conv2d(hidden, k)`. -/
def attn_score {b L n : ℕ} (tanhF : ℚ → ℚ) (states : Fin b → Fin L → Fin n → ℚ)
    (k : Fin n → Fin n → ℚ) (v : Fin n → ℚ) (y : Mat b n) :
    Fin b → Fin L → ℚ :=
  fun i l => ∑ z : Fin 1, ∑ c, v c * tanhF (conv1x1 (hidden4 states) k i l z c + y i c)

/-- The attention mask `a = nn_ops.softmax(s)` (lines 309, 334). -/
def attn_mask {b L n : ℕ} (tanhF eF : ℚ → ℚ) (states : Fin b → Fin L → Fin n → ℚ)
    (k : Fin n → Fin n → ℚ) (v : Fin n → ℚ) (y : Mat b n) :
    Fin b → Fin L → ℚ :=
  fun i => softmax eF (attn_score tanhF states k v y i)

/-- The attention read
`reshape(reduce_sum(reshape(a, [-1, L, 1, 1]) * hidden, [1, 2]), [-1, n])`
(lines 311-314, 336-339). -/
def attn_read {b L n : ℕ} (tanhF eF : ℚ → ℚ) (states : Fin b → Fin L → Fin n → ℚ)
    (k : Fin n → Fin n → ℚ) (v : Fin n → ℚ) (y : Mat b n) : Mat b n :=
  fun i j => ∑ l, ∑ z : Fin 1, attn_mask tanhF eF states k v y i l * hidden4 states i l z j

/-- Embedding of `attention(query)` of the decoder (lines 292-315): `query` is
`list_of_queries = [state, attns_query]`, flattened and concatenated, so its
`linear` is `linear2`; head `hd` uses `AttnW_State_hd`, `AttnV_State_hd` and the
`Attention_hd/Matrix`, `Attention_hd/Bias` of its scope. -/
def attention {b L cs nQ nS h : ℕ} (tanhF eF : ℚ → ℚ)
    (attentionStates : Fin b → Fin L → Fin nS → ℚ)
    (kState : Fin h → Fin nS → Fin nS → ℚ) (vState : Fin h → Fin nS → ℚ)
    (aW1 : Fin h → Fin cs → Fin nS → ℚ) (aW2 : Fin h → Fin nQ → Fin nS → ℚ)
    (aB : Fin h → Fin nS → ℚ)
    (queryState : Mat b cs) (queryAttn : Mat b nQ) (hd : Fin h) : Mat b nS :=
  attn_read tanhF eF attentionStates (kState hd) (vState hd)
    (linear2 queryState queryAttn (aW1 hd) (aW2 hd) (aB hd))

/-- Embedding of `attention_query(query)` of the decoder (lines 317-342): the query is the
single tensor `state`, and only `ds[0]` is returned; head `hd` computes the
read for `AttnW_Query_hd`, `AttnV_Query_hd`. -/
def attention_query {b Lq cs nQ h : ℕ} (tanhF eF : ℚ → ℚ)
    (attentionStatesQuery : Fin b → Fin Lq → Fin nQ → ℚ)
    (kQuery : Fin h → Fin nQ → Fin nQ → ℚ) (vQuery : Fin h → Fin nQ → ℚ)
    (qW : Fin h → Fin cs → Fin nQ → ℚ) (qB : Fin h → Fin nQ → ℚ)
    (query : Mat b cs) (hd : Fin h) : Mat b nQ :=
  attn_read tanhF eF attentionStatesQuery (kQuery hd) (vQuery hd)
    (linear1 query (qW hd) (qB hd))

/-- Denominator of the distraction coefficient (line 388):
`reduce_sum(mul(prev_attn, prev_attn), 1) + eps`. -/
def distract_denom {b n : ℕ} (p : Mat b n) : Fin b → ℚ :=
  fun i => (∑ j, p i j * p i j) + eps14

/-- Embedding of `temp = div(reduce_sum(mul(a, prev_attn), 1), reduce_sum(mul(prev_attn, prev_attn), 1) + eps)`
(lines 387-388). -/
def distract_temp {b n : ℕ} (a p : Mat b n) : Fin b → ℚ :=
  fun i => (∑ j, a i j * p i j) / distract_denom p i

/-- Embedding of `gate = matmul(prev_attn, gate_weight) + gate_bias` (line 391). -/
def distract_gate {b n : ℕ} (gW : Fin n → Fin n → ℚ) (gB : Fin n → ℚ)
    (p : Mat b n) : Mat b n :=
  fun i j => (∑ k, p i k * gW k j) + gB j

/-- The distraction block (lines 384-403): given the current attention read
`a = attns_state[0]` and the loop variable `prev_attn` (set to the previous
step value of `distract_output` at line 431, `None` before the first step), compute
the `distract_output` combined with the decoder input.  `sig_gate` is
`sigmoid(transpose(gate))` and `temp1 = transpose(mul(sig_gate, temp))`, the
broadcast multiplying each column of `sig_gate` by the per-example `temp`. -/
def distract_output {b n : ℕ} (sig : ℚ → ℚ) (gW : Fin n → Fin n → ℚ)
    (gB : Fin n → ℚ) (a : Mat b n) : Option (Mat b n) → Mat b n
  | none => a
  | some p =>
    let temp := distract_temp a p
    let sig_gate : Fin n → Fin b → ℚ :=
      fun j i => sig (transposeM (distract_gate gW gB p) j i)
    let temp1 := transposeM (fun j i => sig_gate j i * temp i)
    fun i j => a i j - p i j * temp1 i j

/-- The tensors and graph parameters the decoder reads: the abstract
transcendental primitives, the variables fetched by `get_variable` before and
inside the loop, the attention inputs, the RNN cell (an opaque graph function
in the source as well) and the optional `loop_function`. -/
structure DecoderParams (b m cs nS nQ oS L Lq nh : ℕ) where
  sigmoid : ℚ → ℚ
  tanhF : ℚ → ℚ
  expF : ℚ → ℚ
  attentionStates : Fin b → Fin L → Fin nS → ℚ
  attentionStatesQuery : Fin b → Fin Lq → Fin nQ → ℚ
  kState : Fin (nh + 1) → Fin nS → Fin nS → ℚ
  vState : Fin (nh + 1) → Fin nS → ℚ
  attnW1 : Fin (nh + 1) → Fin cs → Fin nS → ℚ
  attnW2 : Fin (nh + 1) → Fin nQ → Fin nS → ℚ
  attnB : Fin (nh + 1) → Fin nS → ℚ
  kQuery : Fin (nh + 1) → Fin nQ → Fin nQ → ℚ
  vQuery : Fin (nh + 1) → Fin nQ → ℚ
  attnQW : Fin (nh + 1) → Fin cs → Fin nQ → ℚ
  attnQB : Fin (nh + 1) → Fin nQ → ℚ
  gateWeight : Fin nS → Fin nS → ℚ
  gateBias : Fin nS → ℚ
  xW1 : Fin m → Fin m → ℚ
  xW2 : Fin nS → Fin m → ℚ
  xB : Fin m → ℚ
  cell : Mat b m → Mat b cs → Mat b cs × Mat b cs
  projW1 : Fin cs → Fin oS → ℚ
  projW2 : Fin (nh + 1) → Fin nS → Fin oS → ℚ
  projB : Fin oS → ℚ
  loopFunction : Option (Mat b oS → ℕ → Mat b m)

/-- The loop-carried variables of the decoding loop (lines 345-347, 370-432). -/
structure LoopState (b m cs nS oS nh : ℕ) where
  state : Mat b cs
  attns_state : Fin (nh + 1) → Mat b nS
  prev_attn : Option (Mat b nS)
  prev : Option (Mat b oS)
  outputs : List (Mat b oS)

/-- The effective decoder input at step `i` (lines 374-376): `loop_function(prev, i)`
when a loop function is set and a previous output exists, else `decoder_inputs[i]`. -/
def decoder_inp {b m cs nS nQ oS L Lq nh : ℕ}
    (P : DecoderParams b m cs nS nQ oS L Lq nh) (i : ℕ) (inp0 : Mat b m)
    (s : LoopState b m cs nS oS nh) : Mat b m :=
  match P.loopFunction, s.prev with
  | some f, some pv => f pv i
  | _, _ => inp0

/-- Embedding of `x = linear([inp] + [distract_output], input_size, True)` (line 405): the
vector merged with the decoder input is the distraction output. -/
def cell_input {b m cs nS nQ oS L Lq nh : ℕ}
    (P : DecoderParams b m cs nS nQ oS L Lq nh) (i : ℕ) (inp0 : Mat b m)
    (s : LoopState b m cs nS oS nh) : Mat b m :=
  linear2 (decoder_inp P i inp0 s)
    (distract_output P.sigmoid P.gateWeight P.gateBias (s.attns_state 0) s.prev_attn)
    P.xW1 P.xW2 P.xB

/-- One iteration of the decoding loop (lines 370-432).  The
`i == 0 and initial_state_attention` branch at line 413 only toggles variable
reuse and computes the same values, so both branches have one embedding. -/
def decoder_step {b m cs nS nQ oS L Lq nh : ℕ}
    (P : DecoderParams b m cs nS nQ oS L Lq nh) (i : ℕ) (inp0 : Mat b m)
    (s : LoopState b m cs nS oS nh) : LoopState b m cs nS oS nh :=
  let d := distract_output P.sigmoid P.gateWeight P.gateBias (s.attns_state 0) s.prev_attn
  let x := cell_input P i inp0 s
  let cs2 := P.cell x s.state
  let attns_query := attention_query P.tanhF P.expF P.attentionStatesQuery
    P.kQuery P.vQuery P.attnQW P.attnQB cs2.2 0
  let new_attns := fun hd => attention P.tanhF P.expF P.attentionStates
    P.kState P.vState P.attnW1 P.attnW2 P.attnB cs2.2 attns_query hd
  let output := linear_heads cs2.1 new_attns P.projW1 P.projW2 P.projB
  { state := cs2.2
    attns_state := new_attns
    prev_attn := some d
    prev := if P.loopFunction.isSome then some output else s.prev
    outputs := s.outputs ++ [output] }

/-- The loop `for i, inp in enumerate(decoder_inputs)`. -/
def decoder_run {b m cs nS nQ oS L Lq nh : ℕ}
    (P : DecoderParams b m cs nS nQ oS L Lq nh) :
    ℕ → List (Mat b m) → LoopState b m cs nS oS nh → LoopState b m cs nS oS nh
  | _, [], s => s
  | i, inp :: rest, s => decoder_run P (i + 1) rest (decoder_step P i inp s)

/-- The loop state entering the first iteration: the projected initial state
(line 289), zero `attns_state` (or the `initial_state_attention` reads of
lines 365-368, which query the unprojected `initial_state`), `prev = None` and
`prev_attn = None` (lines 346-347). -/
def decoder_initial_loop_state {b m cs nS nQ oS L Lq nh : ℕ}
    (P : DecoderParams b m cs nS nQ oS L Lq nh) (initial_state : Mat b cs)
    (pW : Fin cs → Fin cs → ℚ) (pB : Fin cs → ℚ)
    (initial_state_attention : Bool) : LoopState b m cs nS oS nh :=
  { state := fun i j => (∑ k, initial_state i k * pW k j) + pB j
    attns_state :=
      if initial_state_attention then
        let aq := attention_query P.tanhF P.expF P.attentionStatesQuery
          P.kQuery P.vQuery P.attnQW P.attnQB initial_state 0
        fun hd => attention P.tanhF P.expF P.attentionStates
          P.kState P.vState P.attnW1 P.attnW2 P.attnB initial_state aq hd
      else fun _ _ _ => 0
    prev_attn := none
    prev := none
    outputs := [] }

/-- Embedding of `dynamic_simple_soft_distraction_decoder` (lines 144-434), value level:
returns `(outputs, state)` of the final loop state. -/
def dynamic_simple_soft_distraction_decoder {b m cs nS nQ oS L Lq nh : ℕ}
    (P : DecoderParams b m cs nS nQ oS L Lq nh) (decoder_inputs : List (Mat b m))
    (initial_state : Mat b cs) (pW : Fin cs → Fin cs → ℚ) (pB : Fin cs → ℚ)
    (initial_state_attention : Bool) : List (Mat b oS) × Mat b cs :=
  let sF := decoder_run P 0 decoder_inputs
    (decoder_initial_loop_state P initial_state pW pB initial_state_attention)
  (sF.outputs, sF.state)

/-- Embedding of `nn_ops.sparse_softmax_cross_entropy_with_logits(logit, target)` per example:
minus the log of the softmax probability of the target label, with the
exponential and logarithm as abstract parameters. -/
def sparse_softmax_cross_entropy_with_logits {b V : ℕ} (eF logF : ℚ → ℚ)
    (logit : Fin b → Fin V → ℚ) (target : Fin b → Fin V) : Fin b → ℚ :=
  fun i => - logF (eF (logit i (target i)) / ∑ v, eF (logit i v))

/-- Embedding of `math_ops.add_n` on a list of batch-sized tensors. -/
def add_n {b : ℕ} (xs : List (Fin b → ℚ)) : Fin b → ℚ :=
  fun i => (xs.map (fun f => f i)).sum

/-- The per-step `crossent` of `sequence_loss_by_example` (lines 90-98): the
standard sparse softmax cross-entropy, unless a `softmax_loss_function` is
supplied.  The `reshape(target, [-1])` is the identity on a batch-sized
target. -/
def crossent_of {b V : ℕ} (eF logF : ℚ → ℚ)
    (slf : Option ((Fin b → Fin V → ℚ) → (Fin b → Fin V) → Fin b → ℚ)) :
    (Fin b → Fin V → ℚ) → (Fin b → Fin V) → Fin b → ℚ :=
  match slf with
  | none => sparse_softmax_cross_entropy_with_logits eF logF
  | some f => f

/-- Embedding of `total_size = add_n(weights); total_size += 1e-12` (lines 102-103). -/
def total_size {b : ℕ} (weights : List (Fin b → ℚ)) : Fin b → ℚ :=
  fun i => add_n weights i + eps12

/-- Embedding of `sequence_loss_by_example` (lines 62-105).  Raises when the three list
lengths disagree; otherwise sums `crossent * weight` over the time steps and,
when `average_across_timesteps`, divides by the guarded total weight. -/
def sequence_loss_by_example {b V : ℕ} (eF logF : ℚ → ℚ)
    (slf : Option ((Fin b → Fin V → ℚ) → (Fin b → Fin V) → Fin b → ℚ))
    (logits : List (Fin b → Fin V → ℚ)) (targets : List (Fin b → Fin V))
    (weights : List (Fin b → ℚ)) (average_across_timesteps : Bool) :
    Except String (Fin b → ℚ) :=
  if targets.length ≠ logits.length ∨ weights.length ≠ logits.length then
    .error "Lengths of logits, weights, and targets must be the same."
  else
    let log_perp_list := List.zipWith3
      (fun lo ta we => fun i => crossent_of eF logF slf lo ta i * we i)
      logits targets weights
    let log_perps := add_n log_perp_list
    if average_across_timesteps then
      .ok (fun i => log_perps i / total_size weights i)
    else
      .ok log_perps

/-- The batch divisor `math_ops.cast(batch_size, dtypes.float32)` constructed
by `sequence_loss` at line 137: the float cast of `shape(targets[0])[0]`, with
no epsilon or check added to it. -/
def batch_size_divisor (b : ℕ) : ℚ := (b : ℚ)

/-- Embedding of `sequence_loss` (lines 108-139): `reduce_sum` of the per-example losses,
divided by the batch size `shape(targets[0])[0]` cast to float when
`average_across_batch`.  In the embedding the batch size is the type index
`b`. -/
def sequence_loss {b V : ℕ} (eF logF : ℚ → ℚ)
    (slf : Option ((Fin b → Fin V → ℚ) → (Fin b → Fin V) → Fin b → ℚ))
    (logits : List (Fin b → Fin V → ℚ)) (targets : List (Fin b → Fin V))
    (weights : List (Fin b → ℚ))
    (average_across_timesteps average_across_batch : Bool) : Except String ℚ :=
  match sequence_loss_by_example eF logF slf logits targets weights
      average_across_timesteps with
  | .error msg => .error msg
  | .ok log_perps =>
    let cost := ∑ i, log_perps i
    if average_across_batch then .ok (cost / batch_size_divisor b) else .ok cost

/-- Static-shape metadata of a tensor: `none` for an unknown rank, otherwise
the list of dimensions, each possibly unknown. -/
abbrev StaticShape : Type := Option (List (Option ℕ))

/-- Embedding of `shape.with_rank(2)`: an unknown rank becomes `[None, None]`; a known rank
other than 2 raises (`none` here). -/
def with_rank_2 (shape : StaticShape) : StaticShape :=
  match shape with
  | none => some [none, none]
  | some dims => if dims.length = 2 then some dims else none

/-- Embedding of `inp.get_shape().with_rank(2)[1].value` (line 378): the statically inferred
input size, `none` when the access raises or the dimension is unknown. -/
def inferred_input_size (shape : StaticShape) : Option ℕ :=
  match with_rank_2 shape with
  | none => none
  | some dims => (dims.get? 1).join

/-- The per-input check of the decoding loop (lines 378-380), over the list of
decoder-input static shapes. -/
def check_inputs : List StaticShape → Except String Unit
  | [] => .ok ()
  | s :: rest =>
    if (inferred_input_size s).isSome then check_inputs rest
    else .error "Could not infer input size from input"

/-- The `ValueError` checks of `dynamic_simple_soft_distraction_decoder`
(lines 209-215 and 378-380), over the static metadata they read: the
decoder-input shapes, `num_heads`, and `attention_states.get_shape()[2].value`. -/
def decoder_shape_checks (decoder_inputs : List StaticShape) (num_heads : ℕ)
    (attn_dim2 : Option ℕ) : Except String Unit :=
  if decoder_inputs.length = 0 then
    .error "Must provide at least 1 input to attention decoder."
  else if num_heads < 1 then
    .error "With less than 1 heads, use a non-attention decoder."
  else
    match attn_dim2 with
    | none => .error "Shape[2] of attention_states must be known"
    | some _ => check_inputs decoder_inputs

/-- The variables the decoding loop fetches each step, keyed by their scoped
TensorFlow names: `Matrix`/`Bias` of the line-405 `linear`, the cell
variables, `Attention_Query_a/Matrix`, `Attention_Query_a/Bias`,
`Attention_a/Matrix`, `Attention_a/Bias` per head `a`, and
`AttnOutputProjection/Matrix`, `AttnOutputProjection/Bias`. -/
inductive VarName : Type where
  | matrixX : VarName
  | biasX : VarName
  | cellVar : ℕ → VarName
  | attnQueryMatrix : ℕ → VarName
  | attnQueryBias : ℕ → VarName
  | attnMatrix : ℕ → VarName
  | attnBias : ℕ → VarName
  | projMatrix : VarName
  | projBias : VarName
deriving DecidableEq

/-- The variable store of a scope: created variables with their identities. -/
abbrev VarStore : Type := List (VarName × ℕ)

/-- Lookup of a name in the store. -/
def lookupVar (store : VarStore) (name : VarName) : Option ℕ :=
  match store with
  | [] => none
  | p :: rest => if p.1 = name then some p.2 else lookupVar rest name

/-- Embedding of `variable_scope.get_variable`: with `reuse` set it returns the existing
variable and raises when there is none; without `reuse` it creates a fresh
variable and raises when the name already exists. -/
def get_variable (store : VarStore) (reuse : Bool) (name : VarName) :
    Except String (ℕ × VarStore) :=
  if reuse then
    match lookupVar store name with
    | some id2 => .ok (id2, store)
    | none => .error "Variable does not exist, or was not created with get_variable"
  else
    match lookupVar store name with
    | some _ => .error "Variable already exists, disallowed"
    | none => .ok (store.length, (name, store.length) :: store)

/-- Sequential `get_variable` calls, threading the store. -/
def get_variables (store : VarStore) (reuse : Bool) :
    List VarName → Except String (List ℕ × VarStore)
  | [] => .ok ([], store)
  | n2 :: rest =>
    match get_variable store reuse n2 with
    | .error msg => .error msg
    | .ok (id2, store2) =>
      match get_variables store2 reuse rest with
      | .error msg => .error msg
      | .ok (ids, store3) => .ok (id2 :: ids, store3)

/-- The `get_variable` names of one iteration of the decoding loop, in call
order (lines 405, 409, 420, 422, 426), for `num_heads` heads and a cell with
`numCellVars` variables. -/
def decoder_step_var_names (num_heads numCellVars : ℕ) : List VarName :=
  [VarName.matrixX, VarName.biasX]
    ++ (List.range numCellVars).map VarName.cellVar
    ++ (List.range num_heads).flatMap
      (fun a => [VarName.attnQueryMatrix a, VarName.attnQueryBias a])
    ++ (List.range num_heads).flatMap
      (fun a => [VarName.attnMatrix a, VarName.attnBias a])
    ++ [VarName.projMatrix, VarName.projBias]

/-- Python call binding: a call with `npos` positional arguments and the given
keyword names binds against a parameter list iff every keyword is a parameter
not already bound positionally and every parameter without a default is
bound. -/
def call_binding_ok (params required : List String) (npos : ℕ)
    (kwargs : List String) : Bool :=
  kwargs.all (fun k => params.contains k)
    && kwargs.all (fun k => !(params.take npos).contains k)
    && required.all (fun p => (params.take npos).contains p || kwargs.contains p)

/-- The parameters of `dynamic_simple_soft_distraction_decoder_wrapper`
(lines 436-453), in order. -/
def wrapper_param_names : List String :=
  ["decoder_inputs", "initial_state", "distract_initial_state",
   "attention_states", "attention_states_query", "cell_encoder",
   "distraction_cell", "num_symbols", "embedding_size", "num_heads",
   "output_size", "output_projection", "feed_previous",
   "update_embedding_for_previous", "embedding_scope", "dtype", "scope",
   "initial_state_attention"]

/-- The wrapper parameters without a default value. -/
def wrapper_required_names : List String :=
  ["decoder_inputs", "initial_state", "distract_initial_state",
   "attention_states", "attention_states_query", "cell_encoder",
   "distraction_cell", "num_symbols", "embedding_size"]

/-- The keyword arguments of the wrapper call in the
`isinstance(feed_previous, bool)` branch of
`dynamic_simple_soft_distraction_seq2seq` (lines 650-664); `decoder_inputs` is
passed positionally. -/
def seq2seq_bool_branch_kwargs : List String :=
  ["initial_state", "attention_state", "attention_states_query",
   "cell_encoder", "num_symbols", "embedding_size", "distract_initial_state",
   "num_heads", "output_size", "output_projection", "feed_previous",
   "embedding_scope", "initial_state_attention"]

/-- C1: In `dynamic_simple_soft_distraction_decoder`, the vector combined with
each decoder input is the distraction output: the cell input is the `linear` of
the effective input and `distract_output` of the current attention read
`attns_state[0]` and `prev_attn`; at the first decoding step (`prev_attn` is
`None`, as in the initial loop state) it is the current attention read `a`
unchanged; at every later step it is `a` minus the previous distraction output
(which is what `prev_attn` holds after any step) multiplied elementwise by
`sigmoid(prev_attn * gate_weight + gate_bias)` scaled by the normalized
projection coefficient `⟨a, prev_attn⟩ / (⟨prev_attn, prev_attn⟩ + 1e-14)`. -/
theorem C1_distraction_gate (b m cs nS nQ oS L Lq nh : ℕ)
    (P : DecoderParams b m cs nS nQ oS L Lq nh) (a p : Mat b nS) (i : ℕ)
    (inp : Mat b m) (s : LoopState b m cs nS oS nh) (initial_state : Mat b cs)
    (pW : Fin cs → Fin cs → ℚ) (pB : Fin cs → ℚ) (isa : Bool) :
    distract_output P.sigmoid P.gateWeight P.gateBias a none = a
      ∧ (∀ i2 j2, distract_output P.sigmoid P.gateWeight P.gateBias a (some p) i2 j2
          = a i2 j2 - p i2 j2 * (P.sigmoid ((∑ k, p i2 k * P.gateWeight k j2) + P.gateBias j2)
              * ((∑ k, a i2 k * p i2 k) / ((∑ k, p i2 k * p i2 k) + 1 / 10 ^ 14))))
      ∧ cell_input P i inp s
          = linear2 (decoder_inp P i inp s)
              (distract_output P.sigmoid P.gateWeight P.gateBias (s.attns_state 0) s.prev_attn)
              P.xW1 P.xW2 P.xB
      ∧ (decoder_step P i inp s).prev_attn
          = some (distract_output P.sigmoid P.gateWeight P.gateBias (s.attns_state 0) s.prev_attn)
      ∧ (decoder_initial_loop_state P initial_state pW pB isa).prev_attn = none := by
  refine ⟨rfl, ?_, rfl, rfl, rfl⟩
  intro i2 j2
  simp [distract_output, distract_temp, distract_denom, distract_gate,
    transposeM, eps14]

/-- C2: In the decoder function `attention` over the encoder states, for every head
the attention mask is the softmax over the `attn_length` positions of the
scores `sum(v * tanh(W * hidden_states + linear(query)))` reduced over the
feature dimensions, and the returned read vector is the mask-weighted sum of
the hidden states reshaped to `[batch_size, attn_size_state]`. -/
theorem C2_attention_mask_and_read (b L cs nQ nS h : ℕ) (tanhF eF : ℚ → ℚ)
    (AS : Fin b → Fin L → Fin nS → ℚ)
    (kS : Fin h → Fin nS → Fin nS → ℚ) (vS : Fin h → Fin nS → ℚ)
    (aW1 : Fin h → Fin cs → Fin nS → ℚ) (aW2 : Fin h → Fin nQ → Fin nS → ℚ)
    (aB : Fin h → Fin nS → ℚ) (qs : Mat b cs) (qa : Mat b nQ) (hd : Fin h)
    (i : Fin b) (j : Fin nS) :
    attn_mask tanhF eF AS (kS hd) (vS hd)
        (linear2 qs qa (aW1 hd) (aW2 hd) (aB hd)) i
      = softmax eF (fun l => ∑ c, vS hd c * tanhF ((∑ c2, AS i l c2 * kS hd c2 c)
          + ((∑ k, qs i k * aW1 hd k c) + ((∑ k, qa i k * aW2 hd k c) + aB hd c))))
      ∧ attention tanhF eF AS kS vS aW1 aW2 aB qs qa hd i j
        = ∑ l, attn_mask tanhF eF AS (kS hd) (vS hd)
            (linear2 qs qa (aW1 hd) (aW2 hd) (aB hd)) i l * AS i l j := by
  constructor
  · have hs : attn_score tanhF AS (kS hd) (vS hd)
        (linear2 qs qa (aW1 hd) (aW2 hd) (aB hd)) i
        = fun l => ∑ c, vS hd c * tanhF ((∑ c2, AS i l c2 * kS hd c2 c)
            + ((∑ k, qs i k * aW1 hd k c) + ((∑ k, qa i k * aW2 hd k c) + aB hd c))) := by
      funext l
      simp [attn_score, conv1x1, hidden4, linear2, Fin.sum_univ_one]
    simp only [attn_mask, hs]
  · simp [attention, attn_read, hidden4, Fin.sum_univ_one]

theorem add_n_eq_sum {b : ℕ} (xs : List (Fin b → ℚ)) (i : Fin b) :
    add_n xs i = ∑ t : Fin xs.length, xs.get t i := by
  induction xs with
  | nil => simp [add_n]
  | cons x rest ih =>
    simp only [add_n, List.map_cons, List.sum_cons] at ih ⊢
    rw [ih]
    show x i + ∑ t : Fin rest.length, rest.get t i
      = ∑ t : Fin (rest.length + 1), (x :: rest).get t i
    rw [Fin.sum_univ_succ]
    simp [List.get_eq_getElem, Fin.val_succ, Fin.val_zero,
      List.getElem_cons_succ, List.getElem_cons_zero]

theorem add_n_zipWith3_eq_sum {b : ℕ} {α β γ : Type _} (g : α → β → γ → Fin b → ℚ) :
    ∀ (xs : List α) (ys : List β) (zs : List γ), ys.length = xs.length →
      zs.length = xs.length → ∀ (i : Fin b) (h1 : ys.length = xs.length)
      (h2 : zs.length = xs.length),
      add_n (List.zipWith3 g xs ys zs) i
        = ∑ t : Fin xs.length,
            g (xs.get t) (ys.get (Fin.cast h1.symm t)) (zs.get (Fin.cast h2.symm t)) i
  | [], ys, zs, _, _, i, h1, h2 => by simp [List.zipWith3, add_n]
  | x :: xs, [], zs, hy, _, i, h1, h2 => by simp at hy
  | x :: xs, y :: ys, [], _, hz, i, h1, h2 => by simp at hz
  | x :: xs, y :: ys, z :: zs, hy, hz, i, h1, h2 => by
    have hyb : ys.length = xs.length := by simpa using hy
    have hzb : zs.length = xs.length := by simpa using hz
    have ih := add_n_zipWith3_eq_sum g xs ys zs hyb hzb i hyb hzb
    simp only [List.zipWith3, add_n, List.map_cons, List.sum_cons] at ih ⊢
    rw [ih]
    show _ = ∑ t : Fin (xs.length + 1),
      g ((x :: xs).get t) ((y :: ys).get (Fin.cast h1.symm t))
        ((z :: zs).get (Fin.cast h2.symm t)) i
    rw [Fin.sum_univ_succ]
    simp [List.get_eq_getElem, Fin.coe_cast, Fin.val_succ, Fin.val_zero,
      List.getElem_cons_succ, List.getElem_cons_zero]

/-- C3: For equal-length lists, `sequence_loss_by_example` returns the
per-example sum over time steps of `crossent_t * weight_t`, where `crossent_t`
is the sparse softmax cross-entropy of `logit_t` against `target_t` (or the
supplied `softmax_loss_function`), divided by the total label weight plus
`1e-12` when `average_across_timesteps` is set. -/
theorem C3_sequence_loss_by_example (b V : ℕ) (eF logF : ℚ → ℚ)
    (slf : Option ((Fin b → Fin V → ℚ) → (Fin b → Fin V) → Fin b → ℚ))
    (logits : List (Fin b → Fin V → ℚ)) (targets : List (Fin b → Fin V))
    (weights : List (Fin b → ℚ)) (h1 : targets.length = logits.length)
    (h2 : weights.length = logits.length) :
    sequence_loss_by_example eF logF slf logits targets weights true
        = Except.ok (fun i =>
            (∑ t : Fin logits.length,
              crossent_of eF logF slf (logits.get t) (targets.get (Fin.cast h1.symm t)) i
                * weights.get (Fin.cast h2.symm t) i)
              / ((∑ t : Fin weights.length, weights.get t i) + eps12))
      ∧ sequence_loss_by_example eF logF slf logits targets weights false
        = Except.ok (fun i =>
            ∑ t : Fin logits.length,
              crossent_of eF logF slf (logits.get t) (targets.get (Fin.cast h1.symm t)) i
                * weights.get (Fin.cast h2.symm t) i) := by
  constructor
  · unfold sequence_loss_by_example
    rw [if_neg (by omega)]
    simp only [ite_true]
    congr 1
    funext i
    rw [add_n_zipWith3_eq_sum _ logits targets weights h1 h2 i h1 h2]
    simp [total_size, add_n_eq_sum]
  · unfold sequence_loss_by_example
    rw [if_neg (by omega)]
    simp only [Bool.false_eq_true, ite_false]
    congr 1
    funext i
    rw [add_n_zipWith3_eq_sum _ logits targets weights h1 h2 i h1 h2]

/-- C4: `sequence_loss` is the batch `reduce_sum` of `sequence_loss_by_example`
on the same arguments, divided by the (float-cast) batch size when
`average_across_batch` is set, and the plain batch sum otherwise. -/
theorem C4_sequence_loss (b V : ℕ) (eF logF : ℚ → ℚ)
    (slf : Option ((Fin b → Fin V → ℚ) → (Fin b → Fin V) → Fin b → ℚ))
    (logits : List (Fin b → Fin V → ℚ)) (targets : List (Fin b → Fin V))
    (weights : List (Fin b → ℚ)) (avgT : Bool) (f : Fin b → ℚ)
    (h : sequence_loss_by_example eF logF slf logits targets weights avgT
        = Except.ok f) :
    sequence_loss eF logF slf logits targets weights avgT true
        = Except.ok ((∑ i, f i) / (b : ℚ))
      ∧ sequence_loss eF logF slf logits targets weights avgT false
        = Except.ok (∑ i, f i) := by
  constructor <;> (unfold sequence_loss; rw [h]; simp [batch_size_divisor])

/-- Witness for C4 at a concrete input. -/
theorem C4_sequence_loss_witness :
    sequence_loss id id
          (none : Option ((Fin 1 → Fin 1 → ℚ) → (Fin 1 → Fin 1) → Fin 1 → ℚ))
          [] [] [] false true
        = Except.ok ((∑ i : Fin 1, (fun _ : Fin 1 => (0 : ℚ)) i) / ((1 : ℕ) : ℚ))
      ∧ sequence_loss id id
          (none : Option ((Fin 1 → Fin 1 → ℚ) → (Fin 1 → Fin 1) → Fin 1 → ℚ))
          [] [] [] false false
        = Except.ok (∑ i : Fin 1, (fun _ : Fin 1 => (0 : ℚ)) i) :=
  C4_sequence_loss 1 1 id id none [] [] [] false (fun _ => 0) rfl

/-- Witness for C3 at a concrete input. -/
theorem C3_sequence_loss_by_example_witness :
    sequence_loss_by_example id id
        (none : Option ((Fin 1 → Fin 1 → ℚ) → (Fin 1 → Fin 1) → Fin 1 → ℚ))
        [fun _ _ => (0 : ℚ)] [fun _ => (0 : Fin 1)] [fun _ => (1 : ℚ)] true
      = Except.ok (fun i =>
          (∑ t : Fin ([fun _ _ => (0 : ℚ)] : List (Fin 1 → Fin 1 → ℚ)).length,
            crossent_of id id
                (none : Option ((Fin 1 → Fin 1 → ℚ) → (Fin 1 → Fin 1) → Fin 1 → ℚ))
                (([fun _ _ => (0 : ℚ)] : List (Fin 1 → Fin 1 → ℚ)).get t)
                (([fun _ => (0 : Fin 1)] : List (Fin 1 → Fin 1)).get (Fin.cast (by rfl) t)) i
              * (([fun _ => (1 : ℚ)] : List (Fin 1 → ℚ)).get (Fin.cast (by rfl) t)) i)
            / ((∑ t : Fin ([fun _ => (1 : ℚ)] : List (Fin 1 → ℚ)).length,
                (([fun _ => (1 : ℚ)] : List (Fin 1 → ℚ)).get t) i) + eps12)) :=
  (C3_sequence_loss_by_example 1 1 id id none
    [fun _ _ => (0 : ℚ)] [fun _ => (0 : Fin 1)] [fun _ => (1 : ℚ)] rfl rfl).1

/-- C8: `sequence_loss_by_example` raises `ValueError` iff the list lengths
disagree, and returns the per-example loss tensor iff they agree. -/
theorem C8_length_check (b V : ℕ) (eF logF : ℚ → ℚ)
    (slf : Option ((Fin b → Fin V → ℚ) → (Fin b → Fin V) → Fin b → ℚ))
    (logits : List (Fin b → Fin V → ℚ)) (targets : List (Fin b → Fin V))
    (weights : List (Fin b → ℚ)) (avg : Bool) :
    ((∃ msg, sequence_loss_by_example eF logF slf logits targets weights avg
          = Except.error msg)
        ↔ (targets.length ≠ logits.length ∨ weights.length ≠ logits.length))
      ∧ ((∃ f, sequence_loss_by_example eF logF slf logits targets weights avg
          = Except.ok f)
        ↔ (targets.length = logits.length ∧ weights.length = logits.length)) := by
  unfold sequence_loss_by_example
  by_cases hc : targets.length ≠ logits.length ∨ weights.length ≠ logits.length
  · rw [if_pos hc]
    refine ⟨iff_of_true ⟨_, rfl⟩ hc, iff_of_false (by simp) (by tauto)⟩
  · rw [if_neg hc]
    push_neg at hc
    cases avg <;>
      exact ⟨iff_of_false (by simp) (by tauto), iff_of_true ⟨_, rfl⟩ ⟨hc.1, hc.2⟩⟩

/-- C9 counterexample: not every division constructed by the module is
guarded.  `sequence_loss` (line 137) divides by the bare float cast of the
batch size; at batch size `0` (empty `targets[0]`) that divisor is `0`, with
no epsilon or check, while the two denominators the claim lists are the only
guarded ones.  Concretely, with an empty batch the module returns the cost
divided by the zero divisor. -/
theorem C9_unguarded_batch_division_counterexample :
    batch_size_divisor 0 = 0
      ∧ sequence_loss id id
          (none : Option ((Fin 0 → Fin 1 → ℚ) → (Fin 0 → Fin 1) → Fin 0 → ℚ))
          [] [] [] false true
        = Except.ok ((∑ i : Fin 0, (0 : ℚ)) / batch_size_divisor 0) := by
  constructor
  · norm_num [batch_size_divisor]
  · rfl

/-- C9 (amended): the two divisions the claim lists are guarded: the
per-example averaging denominator `total_size` is strictly positive whenever
the weights are nonnegative (even all zero), and the distraction-gate
denominator `⟨prev_attn, prev_attn⟩ + 1e-14` is strictly positive for every
`prev_attn`.  (The batch-size division of `sequence_loss` at line 137 is not
guarded; see the counterexample.) -/
theorem C9_guarded_denominators (b n : ℕ) :
    (∀ weights : List (Fin b → ℚ), (∀ w ∈ weights, ∀ i, 0 ≤ w i) →
        ∀ i, 0 < total_size weights i)
      ∧ (∀ p : Mat b n, ∀ i, 0 < distract_denom p i) := by
  constructor
  · intro weights hw i
    have h0 : 0 ≤ add_n weights i := by
      rw [add_n_eq_sum]
      exact Finset.sum_nonneg fun t _ => hw _ (weights.get_mem t.1 t.2) i
    have he : (0 : ℚ) < eps12 := by norm_num [eps12]
    unfold total_size
    linarith
  · intro p i
    have h0 : 0 ≤ ∑ j, p i j * p i j :=
      Finset.sum_nonneg fun j _ => mul_self_nonneg _
    have he : (0 : ℚ) < eps14 := by norm_num [eps14]
    unfold distract_denom
    linarith

/-- Witness for C9 at a concrete input. -/
theorem C9_guarded_denominators_witness :
    ((∀ w ∈ ([fun _ => (1 : ℚ)] : List (Fin 1 → ℚ)), ∀ i, 0 ≤ w i)
        ∧ 0 < total_size ([fun _ => (1 : ℚ)] : List (Fin 1 → ℚ)) 0)
      ∧ 0 < distract_denom (fun _ _ => (2 : ℚ) : Mat 1 1) 0 := by
  have hw : ∀ w ∈ ([fun _ => (1 : ℚ)] : List (Fin 1 → ℚ)), ∀ i, 0 ≤ w i := by
    intro w hwm i
    simp only [List.mem_singleton] at hwm
    subst hwm
    norm_num
  exact ⟨⟨hw, (C9_guarded_denominators 1 1).1 _ hw 0⟩,
    (C9_guarded_denominators 1 1).2 _ 0⟩

theorem check_inputs_ok_iff (l : List StaticShape) :
    check_inputs l = Except.ok () ↔ ∀ s ∈ l, (inferred_input_size s).isSome := by
  induction l with
  | nil => simp [check_inputs]
  | cons s rest ih =>
    by_cases hs : (inferred_input_size s).isSome
    · simp [check_inputs, hs, ih]
    · simp [check_inputs, hs]

/-- C10: the own checks of the decoder raise `ValueError` exactly when
`decoder_inputs` is empty, `num_heads < 1`, the third static dimension of
`attention_states` is unknown, or the size of one of the decoder inputs cannot
be inferred from its static shape. -/
theorem C10_decoder_value_error_iff (inputs : List StaticShape) (nh : ℕ)
    (ad2 : Option ℕ) :
    (∃ msg, decoder_shape_checks inputs nh ad2 = Except.error msg)
      ↔ (inputs = [] ∨ nh < 1 ∨ ad2 = none
          ∨ ∃ s ∈ inputs, inferred_input_size s = none) := by
  unfold decoder_shape_checks
  by_cases h1 : inputs.length = 0
  · rw [if_pos h1]
    exact iff_of_true ⟨_, rfl⟩ (Or.inl (List.length_eq_zero.mp h1))
  · rw [if_neg h1]
    have h1b : inputs ≠ [] := fun he => h1 (by simp [he])
    by_cases h2 : nh < 1
    · rw [if_pos h2]
      exact iff_of_true ⟨_, rfl⟩ (Or.inr (Or.inl h2))
    · rw [if_neg h2]
      cases ad2 with
      | none => exact iff_of_true ⟨_, rfl⟩ (Or.inr (Or.inr (Or.inl rfl)))
      | some d =>
        show (∃ msg, check_inputs inputs = Except.error msg) ↔ _
        constructor
        · intro ⟨msg, hmsg⟩
          refine Or.inr (Or.inr (Or.inr ?_))
          by_contra hall
          push_neg at hall
          have : check_inputs inputs = Except.ok () :=
            (check_inputs_ok_iff inputs).mpr fun s hsm =>
              Option.ne_none_iff_isSome.mp (hall s hsm)
          rw [this] at hmsg
          exact Except.noConfusion hmsg
        · intro hor
          rcases hor with he | hn | ha | ⟨s, hsm, hsn⟩
          · exact absurd he h1b
          · exact absurd hn h2
          · exact Option.noConfusion ha
          · cases hchk : check_inputs inputs with
            | error msg => exact ⟨msg, rfl⟩
            | ok u =>
              cases u
              have := (check_inputs_ok_iff inputs).mp hchk s hsm
              rw [hsn] at this
              simp at this

theorem get_variables_reuse (names : List VarName) (store : VarStore)
    (ids : List ℕ) (h : names.map (lookupVar store) = ids.map some) :
    get_variables store true names = Except.ok (ids, store) := by
  induction names generalizing ids with
  | nil =>
    cases ids with
    | nil => rfl
    | cons id2 ids2 => simp at h
  | cons n2 rest ih =>
    cases ids with
    | nil => simp at h
    | cons id2 ids2 =>
      simp only [List.map_cons, List.cons.injEq] at h
      obtain ⟨hn, hrest⟩ := h
      simp [get_variables, get_variable, hn, ih ids2 hrest]

theorem get_variables_preserve :
    ∀ (names : List VarName) (store store1 : VarStore) (ids : List ℕ),
      get_variables store false names = Except.ok (ids, store1) →
      ∀ (n : VarName) (v : ℕ), lookupVar store n = some v →
        lookupVar store1 n = some v
  | [], store, store1, ids, h, n, v, hv => by
    simp only [get_variables, Except.ok.injEq, Prod.mk.injEq] at h
    rw [← h.2]
    exact hv
  | n2 :: rest, store, store1, ids, h, n, v, hv => by
    rcases hge : get_variable store false n2 with msg | ⟨id2, store2⟩
    · simp [get_variables, hge] at h
    · simp only [get_variables, hge] at h
      have hst : store2 = (n2, store.length) :: store ∧ lookupVar store n2 = none := by
        simp only [get_variable, Bool.false_eq_true, if_false] at hge
        cases hl : lookupVar store n2 with
        | some w => rw [hl] at hge; exact Except.noConfusion hge
        | none =>
          rw [hl] at hge
          simp only [Except.ok.injEq, Prod.mk.injEq] at hge
          exact ⟨hge.2.symm, rfl⟩
      rcases hgr : get_variables store2 false rest with msg | ⟨ids3, store3⟩
      · simp [hgr] at h
      · simp only [hgr, Except.ok.injEq, Prod.mk.injEq] at h
        have hv2 : lookupVar store2 n = some v := by
          rw [hst.1]
          simp only [lookupVar]
          by_cases hnn : n2 = n
          · subst hnn
            rw [hst.2] at hv
            exact Option.noConfusion hv
          · simp [hnn, hv]
        have hrec := get_variables_preserve rest store2 store3 ids3 hgr n v hv2
        rw [← h.2]
        exact hrec

theorem get_variables_create :
    ∀ (names : List VarName) (store : VarStore), names.Nodup →
      (∀ n ∈ names, lookupVar store n = none) →
      ∃ ids store1, get_variables store false names = Except.ok (ids, store1)
        ∧ names.map (lookupVar store1) = ids.map some
  | [], store, _, _ => ⟨[], store, rfl, rfl⟩
  | n2 :: rest, store, hnd, hfresh => by
    have hf : lookupVar store n2 = none := hfresh n2 (by simp)
    have hnd2 : rest.Nodup := (List.nodup_cons.mp hnd).2
    have hmem : n2 ∉ rest := (List.nodup_cons.mp hnd).1
    have hfresh2 : ∀ n ∈ rest, lookupVar ((n2, store.length) :: store) n = none := by
      intro n hn
      have hne : n2 ≠ n := fun he => hmem (he ▸ hn)
      simp only [lookupVar, hne, if_false]
      exact hfresh n (List.mem_cons_of_mem _ hn)
    obtain ⟨ids, store1, hrun, hlook⟩ :=
      get_variables_create rest ((n2, store.length) :: store) hnd2 hfresh2
    refine ⟨store.length :: ids, store1, ?_, ?_⟩
    · simp [get_variables, get_variable, hf, hrun]
    · have hn2 : lookupVar store1 n2 = some store.length := by
        apply get_variables_preserve rest _ store1 ids hrun
        simp [lookupVar]
      simp [hn2, hlook]

/-- C6: every decoding step after the first sets the scope to reuse, so the
step `get_variable` calls (attention parameters, gate/cell/`linear`
parameters, output projection) return exactly the variables created at the
first step and leave the variable store unchanged: the parameters are the same
objects at every time step of one call. -/
theorem C6_step_variable_reuse (nh ncv : ℕ) (store : VarStore)
    (hnd : (decoder_step_var_names nh ncv).Nodup)
    (hfresh : ∀ n ∈ decoder_step_var_names nh ncv, lookupVar store n = none) :
    ∃ ids store1,
      get_variables store false (decoder_step_var_names nh ncv)
          = Except.ok (ids, store1)
        ∧ get_variables store1 true (decoder_step_var_names nh ncv)
          = Except.ok (ids, store1) := by
  obtain ⟨ids, store1, hc, hl⟩ :=
    get_variables_create (decoder_step_var_names nh ncv) store hnd hfresh
  exact ⟨ids, store1, hc, get_variables_reuse _ _ _ hl⟩

/-- Witness for C6 at a concrete input. -/
theorem C6_step_variable_reuse_witness :
    (decoder_step_var_names 1 1).Nodup
      ∧ (∀ n ∈ decoder_step_var_names 1 1, lookupVar [] n = none)
      ∧ ∃ ids store1,
          get_variables [] false (decoder_step_var_names 1 1)
              = Except.ok (ids, store1)
            ∧ get_variables store1 true (decoder_step_var_names 1 1)
              = Except.ok (ids, store1) :=
  ⟨by decide, by decide, C6_step_variable_reuse 1 1 [] (by decide) (by decide)⟩

/-- C5 evidence: the wrapper call in the `isinstance(feed_previous, bool)`
branch of `dynamic_simple_soft_distraction_seq2seq` does not bind: it passes
the unknown keyword `attention_state` (the parameter is `attention_states`)
and leaves the required parameter `distraction_cell` (and `attention_states`)
unbound, so the call raises `TypeError` instead of returning
`(outputs, state)`. -/
theorem C5_seq2seq_bool_branch_call_mismatch :
    call_binding_ok wrapper_param_names wrapper_required_names 1
        seq2seq_bool_branch_kwargs = false
      ∧ seq2seq_bool_branch_kwargs.contains "attention_state" = true
      ∧ wrapper_param_names.contains "attention_state" = false
      ∧ wrapper_required_names.contains "distraction_cell" = true
      ∧ seq2seq_bool_branch_kwargs.contains "distraction_cell" = false := by
  refine ⟨?_, ?_, ?_, ?_, ?_⟩ <;> rfl

end DDSS
